import Mathlib

/-!
Verification development for the map-tracking application (Vue/Leaflet variants).

The JavaScript source is shallowly embedded: JS numbers are modelled as real
numbers, the mutable Vue refs of each component are gathered into explicit
state structures, and every function under scrutiny is translated directly
from its source.  External collaborators (Leaflet's `map.distance`, the
geolocation stream, the OSRM routing service) are passed in as parameters or
event lists, following the interfaces the code uses.
-/

namespace MapTesting

/-- A geographic coordinate pair, `(lat, lng)` unless noted otherwise. -/
abbrev Coord : Type := ℝ × ℝ

/-- Default coordinate used for out-of-range list indexing (JS would yield
`undefined`; all modelled accesses are proved in range). -/
def c0 : Coord := (0, 0)

/-- Model of JavaScript `Math.atan2 y x`: angle of the point `(x, y)` in
`(-pi, pi]`, with `atan2 0 0 = 0` as in JS. -/
noncomputable def atan2 (y x : ℝ) : ℝ :=
  if 0 < x then Real.arctan (y / x)
  else if x < 0 then
    if 0 ≤ y then Real.arctan (y / x) + Real.pi
    else Real.arctan (y / x) - Real.pi
  else
    if 0 < y then Real.pi / 2
    else if y < 0 then -(Real.pi / 2)
    else 0

/-- Model of the JavaScript remainder `a % b` for a nonnegative dividend and
positive divisor (the only situation in which the code uses it); in that case
JS `%` agrees with the floor-based remainder. -/
noncomputable def jsMod (a b : ℝ) : ℝ := a - b * (⌊a / b⌋ : ℝ)

/-- Degree-to-radian factor `pi / 180`, as in Leaflet's `Math.PI / 180`. -/
noncomputable def rad : ℝ := Real.pi / 180

/-- Leaflet's `CRS.Earth.distance` (the `map.distance` helper the code calls):
haversine great-circle distance in meters on a sphere of radius 6371000,
for `(lat, lng)` inputs in degrees. -/
noncomputable def leafletDistance (p q : Coord) : ℝ :=
  let lat1 := p.1 * rad
  let lat2 := q.1 * rad
  let sinDLat := Real.sin ((q.1 - p.1) * rad / 2)
  let sinDLon := Real.sin ((q.2 - p.2) * rad / 2)
  let a := sinDLat * sinDLat + Real.cos lat1 * Real.cos lat2 * (sinDLon * sinDLon)
  6371000 * (2 * atan2 (Real.sqrt a) (Real.sqrt (1 - a)))

/-- `getBearingAngle` from the rotated-marker variant, translated verbatim:
it reads the last two entries of `positionsHistory` and feeds their
coordinates — which are in degrees — directly to `sin`/`cos` (the source
performs no degree-to-radian conversion), then converts the `atan2` result
from radians to degrees and normalizes with `(x + 360) % 360`. -/
noncomputable def getBearingAngle (positionsHistory : List Coord) : ℝ :=
  if positionsHistory.length < 2 then 0
  else
    let prev := positionsHistory.getD (positionsHistory.length - 2) c0
    let curr := positionsHistory.getD (positionsHistory.length - 1) c0
    let y := Real.sin (curr.2 - prev.2) * Real.cos curr.1
    let x := Real.cos prev.1 * Real.sin curr.1 -
      Real.sin prev.1 * Real.cos curr.1 * Real.cos (curr.2 - prev.2)
    jsMod (atan2 y x * 180 / Real.pi + 360) 360

/-- The bearing computation as the specification states it: the same
`atan2 (sin dLng * cos lat2) (cos lat1 * sin lat2 - sin lat1 * cos lat2 * cos dLng)`
formula, but with the latitudes and the longitude difference converted from
degrees to radians before the trigonometric functions are applied, then
converted to degrees and normalized into `[0, 360)`. -/
noncomputable def specBearing (prev curr : Coord) : ℝ :=
  let lat1 := prev.1 * rad
  let lat2 := curr.1 * rad
  let dLng := (curr.2 - prev.2) * rad
  let y := Real.sin dLng * Real.cos lat2
  let x := Real.cos lat1 * Real.sin lat2 -
    Real.sin lat1 * Real.cos lat2 * Real.cos dLng
  jsMod (atan2 y x * 180 / Real.pi + 360) 360

/-- An OSRM maneuver object, as read from `step.maneuver` in the responses:
the instruction text, the maneuver type (depart/turn/arrive/...), and the
directional modifier (left/right/slight left/...). -/
structure Maneuver where
  instruction : String
  type : String
  modifier : String
deriving Repr, DecidableEq

/-- A raw routing step from `route.legs[0].steps`.  Distances are meters and
durations seconds; modelled as rationals (exact JS number values). -/
structure RawStep where
  maneuver : Maneuver
  distance : ℚ
  duration : ℚ
deriving Repr, DecidableEq

/-- A processed instruction as built by `processInstructions` in the main
variant: formatted distance/time strings plus the passed-through maneuver
type and modifier. -/
structure Instruction where
  instruction : String
  distance : String
  time : String
  type : String
  modifier : String
deriving Repr, DecidableEq

/-- JS `Math.round`: round half up. -/
def jsRound (q : ℚ) : ℤ := ⌊q + 1 / 2⌋

/-- JS `%` on rationals, for nonnegative dividend and positive divisor. -/
def jsModQ (a b : ℚ) : ℚ := a - b * (⌊a / b⌋ : ℚ)

/-- JS `x.toFixed(1)`: render with one decimal digit (nonnegative inputs). -/
def toFixed1 (q : ℚ) : String :=
  let n : ℤ := ⌊q * 10 + 1 / 2⌋
  toString (n / 10) ++ "." ++ toString (n % 10)

/-- `formatDistance` from the main variant:
`meters > 1000 ? (meters/1000).toFixed(1) km : Math.round(meters) m`. -/
def formatDistance (meters : ℚ) : String :=
  if 1000 < meters then toFixed1 (meters / 1000) ++ " km"
  else toString (jsRound meters) ++ " m"

/-- `formatDuration` from the main variant: hours via `Math.floor(s/3600)`,
minutes via `Math.round((s % 3600)/60)`, formatted `Xh Ymin` when the hour
count is truthy (nonzero) and `Y min` otherwise. -/
def formatDuration (seconds : ℚ) : String :=
  let hours : ℤ := ⌊seconds / 3600⌋
  let minutes : ℤ := jsRound (jsModQ seconds 3600 / 60)
  if hours ≠ 0 then toString hours ++ "h " ++ toString minutes ++ "min"
  else toString minutes ++ " min"

/-- The per-step mapping applied by `processInstructions` to each kept step. -/
def toInstruction (step : RawStep) : Instruction :=
  { instruction := step.maneuver.instruction
    distance := formatDistance step.distance
    time := formatDuration step.duration
    type := step.maneuver.type
    modifier := step.maneuver.modifier }

/-- `processInstructions` from the main variant, translated verbatim: a
`flatMap` that returns `[]` for any step with `distance < 10` and otherwise
the single mapped instruction. -/
def processInstructions (steps : List RawStep) : List Instruction :=
  steps.flatMap fun step =>
    if step.distance < 10 then [] else [toInstruction step]

/-- The fields of an OSRM route response used by `updateRoute`
(`routes[0]`): `geometry.coordinates` as `(lng, lat)` pairs, `distance` in
meters, `duration` in seconds, and `legs[0].steps`. -/
structure OsrmRoute where
  coordinates : List Coord
  distance : ℝ
  duration : ℝ
  steps : List RawStep

/-- The route-related reactive state written by `updateRoute` when a route
response is applied. -/
structure RouteState where
  routeCoordinates : List Coord
  totalDistance : ℝ
  currentDuration : ℝ
  remainingDistance : ℝ
  remainingTime : ℝ
  routeInstructions : List Instruction

/-- The body of `updateRoute` after `await axios.get` resolves, translated
verbatim: the geometry's `(lng, lat)` pairs are swapped to `(lat, lng)`,
route summary fields are set from the response, and the steps are processed.
There is no request sequence number or staleness check in the source: every
response that arrives is applied unconditionally. -/
def applyRouteResponse (_s : RouteState) (route : OsrmRoute) : RouteState :=
  { routeCoordinates := route.coordinates.map fun coord => (coord.2, coord.1)
    totalDistance := route.distance
    currentDuration := route.duration
    remainingDistance := route.distance
    remainingTime := route.duration
    routeInstructions := processInstructions route.steps }

/-- The event-loop view of several in-flight `updateRoute` calls: responses
are delivered one at a time in arrival order, and each is applied by the
response handler above. -/
def processArrivals (s : RouteState) (arrivals : List OsrmRoute) : RouteState :=
  arrivals.foldl applyRouteResponse s

/-- The `forEach` scan inside `updatePositionOnRoute`, translated verbatim:
`minDistance` starts at `Infinity` (modelled as `none`, which any real
distance beats) and an index replaces the current best only on a strictly
smaller distance, so ties keep the earlier index.  `d` is the external
`map.distance` helper and `pos` the current location. -/
noncomputable def findClosestAux (d : Coord → Coord → ℝ) (pos : Coord) :
    List Coord → ℕ → ℕ → Option ℝ → ℕ × Option ℝ
  | [], _, closestIndex, minDistance => (closestIndex, minDistance)
  | coord :: rest, index, closestIndex, minDistance =>
    match minDistance with
    | none => findClosestAux d pos rest (index + 1) index (some (d coord pos))
    | some m =>
      if d coord pos < m then
        findClosestAux d pos rest (index + 1) index (some (d coord pos))
      else
        findClosestAux d pos rest (index + 1) closestIndex (some m)

/-- The closest-geometry-index computed by `updatePositionOnRoute`. -/
noncomputable def findClosest (d : Coord → Coord → ℝ) (pos : Coord)
    (geom : List Coord) : ℕ :=
  (findClosestAux d pos geom 0 0 none).1

/-- The reactive state read and written by `updatePositionOnRoute` /
`updateRouteProgress` in the main variant. -/
structure RouteTrackState where
  currentPositionOnRoute : ℝ
  remainingDistance : ℝ
  remainingTime : ℝ
  totalDistance : ℝ
  currentDuration : ℝ
  routeCoordinates : List Coord
  currentLocation : Option Coord

/-- `updatePositionOnRoute` (plus the `updateRouteProgress` call it ends
with), translated verbatim: guard on an empty geometry or missing location,
linear scan for the closest geometry index, then
`currentPositionOnRoute = closestIndex / routeCoordinates.length` and the
remaining distance/time derived from it.  `d` is the external
`map.distance`. -/
noncomputable def updatePositionOnRoute (d : Coord → Coord → ℝ)
    (s : RouteTrackState) : RouteTrackState :=
  match s.currentLocation with
  | none => s
  | some loc =>
    if s.routeCoordinates.length = 0 then s
    else
      let closestIndex := findClosest d loc s.routeCoordinates
      let frac : ℝ := (closestIndex : ℝ) / (s.routeCoordinates.length : ℝ)
      { s with
        currentPositionOnRoute := frac
        remainingDistance := s.totalDistance * (1 - frac)
        remainingTime := s.currentDuration * (1 - frac) }

/-- The state consulted by the `watchPosition` success callback inside
`locateUser` in the main variant. -/
structure LocateState where
  currentLocation : Option Coord
  destination : Option Coord
  waypoints : List Coord
  routeCoordinates : List Coord

/-- The `watchPosition` success callback inside `locateUser`, reduced to its
state updates and route-request decision: the fix becomes the current
location and, whenever a destination is set, the waypoints are rebuilt from
the fix and `updateRoute()` is invoked — unconditionally, with no
displacement comparison anywhere in the source.  The returned boolean
records whether a route request was issued (marker and map rendering are
external effects, and the trailing progress update is modelled by
`updatePositionOnRoute`). -/
def locateUserOnFix (s : LocateState) (latlng : Coord) : LocateState × Bool :=
  match s.destination with
  | some dest =>
    ({ s with currentLocation := some latlng, waypoints := [latlng, dest] }, true)
  | none =>
    ({ s with currentLocation := some latlng }, false)

/-- JS `x.toFixed(1)` kept as a number: the value rounded to one decimal. -/
noncomputable def toFixed1R (x : ℝ) : ℝ := (⌊x * 10 + 1 / 2⌋ : ℝ) / 10

/-- The state touched by `updatePosition` in the speed/ETA variant. -/
structure TrackState2 where
  lat : ℝ
  lng : ℝ
  currentSpeed : ℝ
  lastPosition : Option Coord
  lastPositionTime : Option ℝ
  positionsHistory : List Coord

/-- `updatePosition` from the speed/ETA variant, translated verbatim: store
the fix coordinates, derive the speed from the previous fix when one exists
and the elapsed time is positive, remember the fix as the previous position,
and push it onto `positionsHistory`.  No validation of any kind is performed
on the incoming coordinates.  `d` is the external `map.distance` and `now`
the wall-clock `Date.now()` in milliseconds. -/
noncomputable def updatePosition (d : Coord → Coord → ℝ) (s : TrackState2)
    (fixLat fixLng now : ℝ) : TrackState2 :=
  let currentPosition : Coord := (fixLat, fixLng)
  let speed :=
    match s.lastPosition, s.lastPositionTime with
    | some lp, some lt =>
      let timeDiff := (now - lt) / 1000
      if 0 < timeDiff then toFixed1R (d lp currentPosition / timeDiff * 3.6)
      else s.currentSpeed
    | _, _ => s.currentSpeed
  { lat := fixLat
    lng := fixLng
    currentSpeed := speed
    lastPosition := some currentPosition
    lastPositionTime := some now
    positionsHistory := s.positionsHistory ++ [currentPosition] }

/-- `calculateTotalDistance` from the speed/ETA variant, translated verbatim:
`for (i = 1; i < positionsHistory.length; i++) total += d(h[i-1], h[i])`. -/
noncomputable def calculateTotalDistance (d : Coord → Coord → ℝ)
    (positionsHistory : List Coord) : ℝ :=
  (List.range' 1 (positionsHistory.length - 1)).foldl
    (fun total i =>
      total + d (positionsHistory.getD (i - 1) c0) (positionsHistory.getD i c0))
    0

/-- The sum of distances over consecutive pairs of a position history — the
quantity the specification describes. -/
noncomputable def consecutiveDistanceSum (d : Coord → Coord → ℝ) : List Coord → ℝ
  | a :: b :: rest => d a b + consecutiveDistanceSum d (b :: rest)
  | _ => 0

/-- The distance summary reported by `stopTracking`: when the history is
nonempty the alert reports `calculateTotalDistance` (scaled to km for
display; the raw meter value is modelled). -/
noncomputable def stopTrackingReport (d : Coord → Coord → ℝ)
    (positionsHistory : List Coord) : Option ℝ :=
  if 0 < positionsHistory.length then
    some (calculateTotalDistance d positionsHistory)
  else none

/-- The browser's timer table: a fresh handle per `setInterval`, and the set
of handles whose callbacks still fire periodically. -/
structure TimerWorld where
  nextId : ℕ
  active : List ℕ

/-- `setInterval`: allocate a fresh handle and make it active. -/
def setIntervalW (w : TimerWorld) : ℕ × TimerWorld :=
  (w.nextId, { nextId := w.nextId + 1, active := w.active ++ [w.nextId] })

/-- `clearInterval id`: the handle stops firing. -/
def clearIntervalW (w : TimerWorld) (id : ℕ) : TimerWorld :=
  { w with active := w.active.filter fun i => i != id }

/-- The tracking-interval state of the main variant: the `trackingInterval`
module variable plus the parts of the route state the tracking functions
consult or clear. -/
structure TrackingState where
  world : TimerWorld
  trackingInterval : Option ℕ
  routeCoordinates : List Coord
  currentLocation : Option Coord
  destination : Option Coord

/-- `stopRouteTracking`, translated verbatim: clear the interval if one is
recorded and null the handle. -/
def stopRouteTracking (s : TrackingState) : TrackingState :=
  match s.trackingInterval with
  | some id =>
    { s with world := clearIntervalW s.world id, trackingInterval := none }
  | none => s

/-- `startRouteTracking`, translated verbatim: always stop first, then only
start a new interval when a route and a location are present. -/
def startRouteTracking (s : TrackingState) : TrackingState :=
  let s1 := stopRouteTracking s
  if s1.routeCoordinates.length = 0 ∨ s1.currentLocation.isNone then s1
  else
    let idw := setIntervalW s1.world
    { s1 with world := idw.2, trackingInterval := some idw.1 }

/-- `clearRoute`, reduced to the state it owns here: stop tracking and reset
the route data (marker/layer removal is rendering). -/
def clearRoute (s : TrackingState) : TrackingState :=
  let s1 := stopRouteTracking s
  { s1 with routeCoordinates := [], destination := none }

/-- The `onUnmounted` hook: it calls `stopRouteTracking` (map teardown is
rendering). -/
def onUnmountedHandler (s : TrackingState) : TrackingState :=
  stopRouteTracking s

/-- At most one progress-tracking interval exists: either no handle is
recorded and no interval is active, or exactly the recorded handle is
active. -/
def TimerInv (s : TrackingState) : Prop :=
  (s.trackingInterval = none ∧ s.world.active = []) ∨
  (∃ id, s.trackingInterval = some id ∧ s.world.active = [id])

lemma jsMod_nonneg (a b : ℝ) (hb : 0 < b) : 0 ≤ jsMod a b := by
  have h1 : (⌊a / b⌋ : ℝ) ≤ a / b := Int.floor_le _
  have h2 : b * (⌊a / b⌋ : ℝ) ≤ b * (a / b) := mul_le_mul_of_nonneg_left h1 hb.le
  have h3 : b * (a / b) = a := by field_simp
  unfold jsMod
  linarith

lemma jsMod_lt (a b : ℝ) (hb : 0 < b) : jsMod a b < b := by
  have h1 : a / b < (⌊a / b⌋ : ℝ) + 1 := Int.lt_floor_add_one _
  have h2 : b * (a / b) < b * ((⌊a / b⌋ : ℝ) + 1) := (mul_lt_mul_left hb).mpr h1
  have h3 : b * (a / b) = a := by field_simp
  unfold jsMod
  nlinarith

lemma jsMod_eq_sub (a b : ℝ) (hb : 0 < b) (h1 : b ≤ a) (h2 : a < 2 * b) :
    jsMod a b = a - b := by
  have hq1 : (1 : ℝ) ≤ a / b := (one_le_div hb).mpr h1
  have hq2 : a / b < 2 := (div_lt_iff₀ hb).mpr (by linarith)
  have hfl : ⌊a / b⌋ = 1 := by
    rw [Int.floor_eq_iff]
    constructor <;> push_cast <;> linarith
  unfold jsMod
  rw [hfl]
  push_cast
  ring

lemma norm360_of_bounds (v : ℝ) (h0 : 0 ≤ v) (h1 : v < 360) :
    jsMod (v + 360) 360 = v := by
  rw [jsMod_eq_sub (v + 360) 360 (by norm_num) (by linarith) (by linarith)]
  ring

lemma jsMod_360_360 : jsMod 360 360 = 0 := by
  have := norm360_of_bounds 0 le_rfl (by norm_num)
  simpa using this

lemma atan2_pos_x (y x : ℝ) (hx : 0 < x) : atan2 y x = Real.arctan (y / x) := by
  unfold atan2
  rw [if_pos hx]

lemma atan2_zero_zero : atan2 0 0 = 0 := by
  unfold atan2
  norm_num

lemma rad_pos : 0 < rad := by
  unfold rad
  positivity

lemma rad_lt_one : rad < 1 := by
  unfold rad
  rw [div_lt_one (by norm_num)]
  nlinarith [Real.pi_lt_d2]

lemma arctan_nonneg_of_nonneg (z : ℝ) (hz : 0 ≤ z) : 0 ≤ Real.arctan z := by
  have h := Real.arctan_strictMono.monotone hz
  rwa [Real.arctan_zero] at h

lemma arctan_deg_bounds (z : ℝ) (hz : 0 ≤ z) :
    0 ≤ Real.arctan z * 180 / Real.pi ∧ Real.arctan z * 180 / Real.pi < 360 := by
  have h1 : 0 ≤ Real.arctan z := arctan_nonneg_of_nonneg z hz
  have h2 : Real.arctan z < Real.pi / 2 := Real.arctan_lt_pi_div_two z
  have hpi := Real.pi_pos
  constructor
  · positivity
  · rw [div_lt_iff₀ hpi]
    nlinarith

lemma leafletDistance_self (p : Coord) : leafletDistance p p = 0 := by
  have h1 : atan2 0 1 = 0 := by
    rw [atan2_pos_x 0 1 one_pos, zero_div, Real.arctan_zero]
  simp [leafletDistance, sub_self, h1]

lemma leafletDistance_zero_one_pos : 0 < leafletDistance (0, 0) (0, 1) := by
  have hs2 : 0 < rad / 2 := by linarith [rad_pos]
  have hlt : rad / 2 < Real.pi := by
    nlinarith [Real.pi_gt_three, rad_lt_one]
  have ht : 0 < Real.sin (rad / 2) := Real.sin_pos_of_pos_of_lt_pi hs2 hlt
  have ht1 : Real.sin (rad / 2) < 1 := by
    nlinarith [Real.sin_lt hs2, rad_lt_one]
  have hsq : 0 < Real.sqrt (1 - Real.sin (rad / 2) * Real.sin (rad / 2)) :=
    Real.sqrt_pos.mpr (by nlinarith)
  have harct :
      0 < Real.arctan (Real.sin (rad / 2) /
        Real.sqrt (1 - Real.sin (rad / 2) * Real.sin (rad / 2))) := by
    have h := Real.arctan_strictMono (div_pos ht hsq)
    rwa [Real.arctan_zero] at h
  have hexp : leafletDistance (0, 0) (0, 1) =
      6371000 * (2 * Real.arctan (Real.sin (rad / 2) /
        Real.sqrt (1 - Real.sin (rad / 2) * Real.sin (rad / 2)))) := by
    simp only [leafletDistance]
    norm_num
    rw [Real.sqrt_mul_self ht.le, atan2_pos_x _ _ hsq]
  rw [hexp]
  nlinarith

lemma sin_one_pos : 0 < Real.sin 1 :=
  Real.sin_pos_of_pos_of_lt_pi one_pos (by nlinarith [Real.pi_gt_three])

lemma cos_one_pos : 0 < Real.cos 1 :=
  Real.cos_pos_of_mem_Ioo
    ⟨by nlinarith [Real.pi_gt_three], by nlinarith [Real.pi_gt_three]⟩

lemma sin_rad_pos : 0 < Real.sin rad :=
  Real.sin_pos_of_pos_of_lt_pi rad_pos
    (by nlinarith [rad_lt_one, Real.pi_gt_three])

lemma cos_rad_nonneg : 0 ≤ Real.cos rad :=
  (Real.cos_pos_of_mem_Ioo
    ⟨by nlinarith [rad_pos, Real.pi_gt_three],
     by nlinarith [rad_lt_one, Real.pi_gt_three]⟩).le

lemma getBearingAngle_eval_one_one :
    getBearingAngle [((0:ℝ), (0:ℝ)), (1, 1)] =
      Real.arctan (Real.cos 1) * 180 / Real.pi := by
  have hx : (0:ℝ) < Real.sin 1 := sin_one_pos
  have hred : getBearingAngle [((0:ℝ), (0:ℝ)), (1, 1)] =
      jsMod (atan2 (Real.sin 1 * Real.cos 1) (Real.sin 1) * 180 / Real.pi + 360)
        360 := by
    simp [getBearingAngle, Real.cos_zero, Real.sin_zero]
  rw [hred, atan2_pos_x _ _ hx, mul_div_cancel_left₀ _ hx.ne']
  exact norm360_of_bounds _ (arctan_deg_bounds _ cos_one_pos.le).1
    (arctan_deg_bounds _ cos_one_pos.le).2

lemma specBearing_eval_one_one :
    specBearing ((0:ℝ), (0:ℝ)) (1, 1) =
      Real.arctan (Real.cos rad) * 180 / Real.pi := by
  have hx : (0:ℝ) < Real.sin rad := sin_rad_pos
  have hred : specBearing ((0:ℝ), (0:ℝ)) (1, 1) =
      jsMod (atan2 (Real.sin rad * Real.cos rad) (Real.sin rad) * 180 / Real.pi
        + 360) 360 := by
    simp [specBearing, Real.cos_zero, Real.sin_zero]
  rw [hred, atan2_pos_x _ _ hx, mul_div_cancel_left₀ _ hx.ne']
  exact norm360_of_bounds _ (arctan_deg_bounds _ cos_rad_nonneg).1
    (arctan_deg_bounds _ cos_rad_nonneg).2

lemma atan2_self_zero (p : Coord) :
    atan2 (Real.sin (p.2 - p.2) * Real.cos p.1)
      (Real.cos p.1 * Real.sin p.1 -
        Real.sin p.1 * Real.cos p.1 * Real.cos (p.2 - p.2)) = 0 := by
  have h1 : Real.sin (p.2 - p.2) * Real.cos p.1 = 0 := by
    rw [sub_self, Real.sin_zero]
    ring
  have h2 : Real.cos p.1 * Real.sin p.1 -
      Real.sin p.1 * Real.cos p.1 * Real.cos (p.2 - p.2) = 0 := by
    rw [sub_self, Real.cos_zero]
    ring
  rw [h1, h2, atan2_zero_zero]

/-- C5: the claim states that the computed bearing applies the great-circle
course formula with latitudes and longitudes converted to radians before the
trigonometric functions.  The code omits that conversion (it feeds degree
values straight into `sin`/`cos`) while still converting the `atan2` output
from radians to degrees, so its result differs from the claimed formula:
for the history `[(0,0), (1,1)]` the code yields
`arctan (cos 1) * 180 / pi` (about 28.4 degrees) while the claimed formula
yields `arctan (cos (pi/180)) * 180 / pi` (about 45 degrees).  The
`* 180 / Math.PI` output conversion in the source only makes sense for
radian inputs, so the missing input conversion is a slip in the code. -/
theorem getBearingAngle_missing_radian_conversion :
    getBearingAngle [((0:ℝ), (0:ℝ)), (1, 1)] ≠ specBearing ((0:ℝ), (0:ℝ)) (1, 1) := by
  rw [getBearingAngle_eval_one_one, specBearing_eval_one_one]
  have hcos : Real.cos 1 < Real.cos rad := by
    have hmem1 : rad ∈ Set.Icc 0 Real.pi :=
      ⟨rad_pos.le, by nlinarith [rad_lt_one, Real.pi_gt_three]⟩
    have hmem2 : (1:ℝ) ∈ Set.Icc 0 Real.pi :=
      ⟨zero_le_one, by nlinarith [Real.pi_gt_three]⟩
    exact Real.strictAntiOn_cos hmem1 hmem2 rad_lt_one
  have harct : Real.arctan (Real.cos 1) < Real.arctan (Real.cos rad) :=
    Real.arctan_strictMono hcos
  have hpi := Real.pi_pos
  have hlt : Real.arctan (Real.cos 1) * 180 / Real.pi <
      Real.arctan (Real.cos rad) * 180 / Real.pi := by
    gcongr
  exact ne_of_lt hlt

/-- C6: for every movement history the computed bearing lies in `[0, 360)`;
it is `0` when the history holds fewer than two fixes, and it is `0` when
the last two fixes coincide (zero delta). -/
theorem getBearingAngle_range_and_degenerate (h : List Coord) :
    (0 ≤ getBearingAngle h ∧ getBearingAngle h < 360) ∧
    (h.length < 2 → getBearingAngle h = 0) ∧
    (2 ≤ h.length →
      h.getD (h.length - 2) c0 = h.getD (h.length - 1) c0 →
      getBearingAngle h = 0) := by
  refine ⟨?_, ?_, ?_⟩
  · simp only [getBearingAngle]
    split_ifs with hl
    · norm_num
    · exact ⟨jsMod_nonneg _ 360 (by norm_num), jsMod_lt _ 360 (by norm_num)⟩
  · intro hl
    simp [getBearingAngle, hl]
  · intro h2 heq
    simp only [getBearingAngle, if_neg (not_lt.mpr h2)]
    rw [heq, atan2_self_zero, zero_mul, zero_div, zero_add, jsMod_360_360]

/-- Witness for C6 at the empty history: the computed bearing is `0`. -/
theorem getBearingAngle_range_witness : getBearingAngle ([] : List Coord) = 0 :=
  (getBearingAngle_range_and_degenerate []).2.1 (by decide)

lemma findClosestAux_spec (d : Coord → Coord → ℝ) (pos : Coord)
    (geom : List Coord) (l : List Coord) :
    ∀ (i0 bi : ℕ) (mv : ℝ),
      (∀ k, k < l.length → l.getD k c0 = geom.getD (i0 + k) c0) →
      bi < i0 →
      mv = d (geom.getD bi c0) pos →
      (∀ j, j < i0 → mv ≤ d (geom.getD j c0) pos) →
      (∀ j, j < bi → mv < d (geom.getD j c0) pos) →
      (findClosestAux d pos l i0 bi (some mv)).1 < i0 + l.length ∧
      (∀ j, j < i0 + l.length →
        d (geom.getD ((findClosestAux d pos l i0 bi (some mv)).1) c0) pos ≤
          d (geom.getD j c0) pos) ∧
      (∀ j, j < (findClosestAux d pos l i0 bi (some mv)).1 →
        d (geom.getD ((findClosestAux d pos l i0 bi (some mv)).1) c0) pos <
          d (geom.getD j c0) pos) := by
  induction l with
  | nil =>
    intro i0 bi mv _ hbi hmv hle hlt
    simp only [findClosestAux, List.length_nil, Nat.add_zero]
    refine ⟨hbi, ?_, ?_⟩
    · intro j hj
      rw [← hmv]
      exact hle j hj
    · intro j hj
      rw [← hmv]
      exact hlt j hj
  | cons c rest ih =>
    intro i0 bi mv hl hbi hmv hle hlt
    have hc : c = geom.getD i0 c0 := by
      have h := hl 0 (by simp)
      simpa using h
    have hl' : ∀ k, k < rest.length → rest.getD k c0 = geom.getD (i0 + 1 + k) c0 := by
      intro k hk
      have hik : i0 + 1 + k = i0 + (k + 1) := by omega
      rw [hik]
      have h := hl (k + 1) (by simp only [List.length_cons]; omega)
      rw [List.getD_cons_succ] at h
      exact h
    simp only [findClosestAux]
    by_cases hd : d c pos < mv
    · rw [if_pos hd]
      have hres := ih (i0 + 1) i0 (d c pos) hl' (Nat.lt_succ_self i0)
        (by rw [← hc])
        (fun j hj => by
          have hj' : j < i0 ∨ j = i0 := by omega
          rcases hj' with hj' | hj'
          · exact le_of_lt (lt_of_lt_of_le hd (hle j hj'))
          · subst hj'
            rw [← hc])
        (fun j hj => lt_of_lt_of_le hd (hle j hj))
      obtain ⟨h1, h2, h3⟩ := hres
      refine ⟨?_, ?_, h3⟩
      · simp only [List.length_cons]
        omega
      · intro j hj
        simp only [List.length_cons] at hj
        exact h2 j (by omega)
    · rw [if_neg hd]
      have hres := ih (i0 + 1) bi mv hl' (Nat.lt_succ_of_lt hbi) hmv
        (fun j hj => by
          have hj' : j < i0 ∨ j = i0 := by omega
          rcases hj' with hj' | hj'
          · exact hle j hj'
          · subst hj'
            rw [← hc]
            exact not_lt.mp hd)
        hlt
      obtain ⟨h1, h2, h3⟩ := hres
      refine ⟨?_, ?_, h3⟩
      · simp only [List.length_cons]
        omega
      · intro j hj
        simp only [List.length_cons] at hj
        exact h2 j (by omega)

lemma findClosest_spec (d : Coord → Coord → ℝ) (pos : Coord) (geom : List Coord)
    (hne : geom ≠ []) :
    findClosest d pos geom < geom.length ∧
    (∀ j, j < geom.length →
      d (geom.getD (findClosest d pos geom) c0) pos ≤ d (geom.getD j c0) pos) ∧
    (∀ j, j < findClosest d pos geom →
      d (geom.getD (findClosest d pos geom) c0) pos < d (geom.getD j c0) pos) := by
  match geom, hne with
  | g :: rest, _ =>
    have hspec := findClosestAux_spec d pos (g :: rest) rest 1 0 (d g pos)
      (fun k hk => by
        rw [Nat.add_comm 1 k, List.getD_cons_succ])
      Nat.zero_lt_one
      (by simp)
      (fun j hj => by
        have hj0 : j = 0 := by omega
        subst hj0
        simp)
      (fun j hj => absurd hj (Nat.not_lt_zero j))
    have h0 : findClosest d pos (g :: rest) =
        (findClosestAux d pos rest 1 0 (some (d g pos))).1 := by
      unfold findClosest
      simp only [findClosestAux]
    obtain ⟨h1, h2, h3⟩ := hspec
    rw [h0]
    simp only [List.length_cons]
    exact ⟨by omega, fun j hj => h2 j (by omega), h3⟩

/-- C1 (amended): for every current position and nonempty route geometry the
progress update selects the geometry index of minimum distance to the
current position (distance measured by the external `map.distance` helper;
ties broken by the lowest index), but sets
`fractionComplete = matchedIndex / geometryLength` — the source divides by
`routeCoordinates.value.length`, not by `geometryLength - 1` as the claim
states.  With a single-point geometry the matched index is `0`, so the
fraction is `0` there. -/
theorem updatePositionOnRoute_nearest_match (d : Coord → Coord → ℝ)
    (s : RouteTrackState) (pos : Coord)
    (hloc : s.currentLocation = some pos) (hne : s.routeCoordinates ≠ []) :
    findClosest d pos s.routeCoordinates < s.routeCoordinates.length ∧
    (∀ j, j < s.routeCoordinates.length →
      d (s.routeCoordinates.getD (findClosest d pos s.routeCoordinates) c0) pos ≤
        d (s.routeCoordinates.getD j c0) pos) ∧
    (∀ j, j < findClosest d pos s.routeCoordinates →
      d (s.routeCoordinates.getD (findClosest d pos s.routeCoordinates) c0) pos <
        d (s.routeCoordinates.getD j c0) pos) ∧
    (updatePositionOnRoute d s).currentPositionOnRoute =
      (findClosest d pos s.routeCoordinates : ℝ) /
        (s.routeCoordinates.length : ℝ) := by
  obtain ⟨h1, h2, h3⟩ := findClosest_spec d pos s.routeCoordinates hne
  have hlen : 0 < s.routeCoordinates.length := List.length_pos.mpr hne
  refine ⟨h1, h2, h3, ?_⟩
  simp only [updatePositionOnRoute, hloc]
  rw [if_neg (by omega)]

/-- Witness for C1 at a one-point geometry and a constant distance
function. -/
theorem updatePositionOnRoute_nearest_match_witness :
    (updatePositionOnRoute (fun _ _ => (0:ℝ))
        { currentPositionOnRoute := 0, remainingDistance := 0, remainingTime := 0,
          totalDistance := 0, currentDuration := 0,
          routeCoordinates := [c0],
          currentLocation := some c0 }).currentPositionOnRoute =
      ((findClosest (fun _ _ => (0:ℝ)) c0 [c0] : ℕ) : ℝ) /
        (([c0] : List Coord).length : ℝ) :=
  (updatePositionOnRoute_nearest_match (fun _ _ => (0:ℝ)) _ c0 rfl
    (by simp)).2.2.2

lemma findClosest_eval_ex :
    findClosest leafletDistance ((0:ℝ), (1:ℝ))
      [((0:ℝ), (0:ℝ)), ((0:ℝ), (1:ℝ))] = 1 := by
  have hlt : leafletDistance ((0:ℝ), (1:ℝ)) ((0:ℝ), (1:ℝ)) <
      leafletDistance ((0:ℝ), (0:ℝ)) ((0:ℝ), (1:ℝ)) := by
    rw [leafletDistance_self]
    exact leafletDistance_zero_one_pos
  unfold findClosest
  simp only [findClosestAux]
  rw [if_pos hlt]

/-- C1 counterexample: for the two-point geometry `[(0,0), (0,1)]` with
current position `(0,1)`, the nearest index by great-circle distance is `1`
(second conjunct: the distance at index 1 is strictly smaller than at index
0), so the claim's formula demands
`fractionComplete = 1 / (2 - 1) = 1`; the code computes
`closestIndex / routeCoordinates.length = 1 / 2`. -/
theorem updatePositionOnRoute_denominator_counterexample :
    (updatePositionOnRoute leafletDistance
        { currentPositionOnRoute := 0, remainingDistance := 0, remainingTime := 0,
          totalDistance := 0, currentDuration := 0,
          routeCoordinates := [((0:ℝ), (0:ℝ)), ((0:ℝ), (1:ℝ))],
          currentLocation := some ((0:ℝ), (1:ℝ)) }).currentPositionOnRoute ≠ 1 ∧
    leafletDistance ((0:ℝ), (1:ℝ)) ((0:ℝ), (1:ℝ)) <
      leafletDistance ((0:ℝ), (0:ℝ)) ((0:ℝ), (1:ℝ)) := by
  refine ⟨?_, ?_⟩
  · simp only [updatePositionOnRoute]
    rw [if_neg (by simp)]
    rw [findClosest_eval_ex]
    norm_num
  · rw [leafletDistance_self]
    exact leafletDistance_zero_one_pos

/-- C8: for every nonempty route geometry and current position, the
completion fraction written by a progress update lies in `[0, 1]`; since
every update writes `closestIndex / length` with `closestIndex < length`,
no sequence of updates can leave the interval. -/
theorem fractionComplete_in_unit_interval (d : Coord → Coord → ℝ)
    (s : RouteTrackState) (pos : Coord)
    (hloc : s.currentLocation = some pos) (hne : s.routeCoordinates ≠ []) :
    0 ≤ (updatePositionOnRoute d s).currentPositionOnRoute ∧
      (updatePositionOnRoute d s).currentPositionOnRoute ≤ 1 := by
  have hlen : 0 < s.routeCoordinates.length := List.length_pos.mpr hne
  have hidx := (findClosest_spec d pos s.routeCoordinates hne).1
  have hfrac : (updatePositionOnRoute d s).currentPositionOnRoute =
      (findClosest d pos s.routeCoordinates : ℝ) /
        (s.routeCoordinates.length : ℝ) := by
    simp only [updatePositionOnRoute, hloc]
    rw [if_neg (by omega)]
  rw [hfrac]
  constructor
  · positivity
  · rw [div_le_one (by exact_mod_cast hlen)]
    exact_mod_cast hidx.le

/-- Witness for C8 at a one-point geometry and a constant distance
function. -/
theorem fractionComplete_in_unit_interval_witness :
    0 ≤ (updatePositionOnRoute (fun _ _ => (1:ℝ))
        { currentPositionOnRoute := 0, remainingDistance := 0, remainingTime := 0,
          totalDistance := 0, currentDuration := 0,
          routeCoordinates := [c0],
          currentLocation := some c0 }).currentPositionOnRoute ∧
      (updatePositionOnRoute (fun _ _ => (1:ℝ))
        { currentPositionOnRoute := 0, remainingDistance := 0, remainingTime := 0,
          totalDistance := 0, currentDuration := 0,
          routeCoordinates := [c0],
          currentLocation := some c0 }).currentPositionOnRoute ≤ 1 :=
  fractionComplete_in_unit_interval (fun _ _ => (1:ℝ)) _ c0 rfl (by simp)

lemma applyRouteResponse_ignores_state (s s' : RouteState) (r : OsrmRoute) :
    applyRouteResponse s r = applyRouteResponse s' r := rfl

/-- C2 (amended): the route handler applies every response that arrives, so
after any sequence of arrivals the active route state is the one from the
last-ARRIVED response — last writer wins by arrival order, not by issue
order.  The source contains no request sequence number or staleness check,
so a superseded request's late-arriving response does overwrite the newer
route. -/
theorem processArrivals_last_arrival_wins (s : RouteState)
    (rs : List OsrmRoute) (r : OsrmRoute) :
    processArrivals s (rs ++ [r]) = applyRouteResponse s r := by
  unfold processArrivals
  rw [List.foldl_append]
  simp only [List.foldl_cons, List.foldl_nil]
  exact applyRouteResponse_ignores_state _ s r

/-- C2 counterexample: issue `R1` then `R2` (distances 1000 and 2000); let
`R2`'s response arrive first and `R1`'s second.  The claim demands that the
active route be `R2`'s; the code's state ends with `R1`'s distance 1000. -/
theorem staleResponseOverwrites :
    (processArrivals
        { routeCoordinates := [], totalDistance := 0, currentDuration := 0,
          remainingDistance := 0, remainingTime := 0, routeInstructions := [] }
        [{ coordinates := [((2:ℝ), (2:ℝ))], distance := 2000, duration := 120,
           steps := [] },
         { coordinates := [((1:ℝ), (1:ℝ))], distance := 1000, duration := 60,
           steps := [] }]).totalDistance = 1000 ∧
    (1000 : ℝ) ≠ 2000 := by
  constructor
  · rfl
  · norm_num

/-- C3 (amended): while tracking, a position fix triggers a route request
exactly when a destination is set — unconditionally, with no displacement
threshold; the source compares the fix against nothing before calling
`updateRoute()`. -/
theorem reRoute_iff_destination (s : LocateState) (latlng : Coord) :
    (locateUserOnFix s latlng).2 = s.destination.isSome := by
  cases h : s.destination <;> simp [locateUserOnFix, h]

/-- C3 counterexample: with a destination set and the incoming fix equal to
the last routed origin (`waypoints[0]`), the displacement is `0 ≤ 50`
meters, yet the callback issues a route request. -/
theorem reRouteWithinThreshold :
    (locateUserOnFix
        { currentLocation := some ((0:ℝ), (0:ℝ)),
          destination := some ((1:ℝ), (1:ℝ)),
          waypoints := [((0:ℝ), (0:ℝ)), ((1:ℝ), (1:ℝ))],
          routeCoordinates := [] } ((0:ℝ), (0:ℝ))).2 = true ∧
    leafletDistance ((0:ℝ), (0:ℝ)) ((0:ℝ), (0:ℝ)) ≤ 50 := by
  constructor
  · rfl
  · rw [leafletDistance_self]
    norm_num

/-- C4 (amended): position ingestion performs no validation whatsoever —
every incoming fix, in range or not, is appended to the movement history. -/
theorem updatePosition_appends_unconditionally (d : Coord → Coord → ℝ)
    (s : TrackState2) (fixLat fixLng now : ℝ) :
    (updatePosition d s fixLat fixLng now).positionsHistory =
      s.positionsHistory ++ [(fixLat, fixLng)] := rfl

/-- C4 counterexample: the fix `(999, 999)` has latitude outside `[-90, 90]`
(second conjunct), yet ingestion appends it to the history — the history is
no longer the empty history it started from, and no error is reported (the
source has no validation or error path at all). -/
theorem invalidFixMutatesHistory :
    (updatePosition leafletDistance
        { lat := 0, lng := 0, currentSpeed := 0, lastPosition := none,
          lastPositionTime := none, positionsHistory := [] }
        999 999 0).positionsHistory ≠ ([] : List Coord) ∧
    (90 : ℝ) < 999 := by
  constructor
  · simp [updatePosition]
  · norm_num

/-- C7: instruction processing keeps exactly the steps whose distance is at
least 10 meters (strictly shorter steps are dropped), in the
service-provided order, and each kept instruction carries the maneuver type
and modifier through unmodified. -/
theorem processInstructions_filters_short_steps (steps : List RawStep) :
    processInstructions steps =
      (steps.filter fun step => decide ((10:ℚ) ≤ step.distance)).map toInstruction ∧
    ∀ step : RawStep, (toInstruction step).type = step.maneuver.type ∧
      (toInstruction step).modifier = step.maneuver.modifier := by
  refine ⟨?_, fun step => ⟨rfl, rfl⟩⟩
  induction steps with
  | nil => rfl
  | cons st rest ih =>
    simp only [processInstructions, List.flatMap_cons, List.filter_cons] at ih ⊢
    by_cases h : st.distance < 10
    · rw [if_pos h]
      have hdec : decide ((10:ℚ) ≤ st.distance) = false := by
        simp [not_le.mpr h]
      rw [hdec]
      simpa using ih
    · rw [if_neg h]
      have hdec : decide ((10:ℚ) ≤ st.distance) = true := by
        simp [not_lt.mp h]
      rw [hdec]
      simpa using ih

lemma foldl_add_eq_sum (g : ℕ → ℝ) (l : List ℕ) (init : ℝ) :
    l.foldl (fun t i => t + g i) init = init + (l.map g).sum := by
  induction l generalizing init with
  | nil => simp
  | cons a l ih =>
    simp only [List.foldl_cons, List.map_cons, List.sum_cons]
    rw [ih]
    ring

lemma range_map_pairs_sum (d : Coord → Coord → ℝ) (t : List Coord) (a : Coord) :
    ((List.range t.length).map fun k =>
        d ((a :: t).getD k c0) (t.getD k c0)).sum =
      consecutiveDistanceSum d (a :: t) := by
  induction t generalizing a with
  | nil => simp [consecutiveDistanceSum]
  | cons b t ih =>
    rw [List.length_cons, List.range_succ_eq_map]
    simp only [List.map_cons, List.map_map, List.sum_cons, List.getD_cons_zero]
    have htail : ((List.range t.length).map
        ((fun k => d ((a :: b :: t).getD k c0) ((b :: t).getD k c0)) ∘ Nat.succ)) =
        (List.range t.length).map fun k => d ((b :: t).getD k c0) (t.getD k c0) := by
      apply List.map_congr_left
      intro k _
      simp [Function.comp]
    rw [htail, ih b]
    simp [consecutiveDistanceSum]

lemma calculateTotalDistance_eq_sum (d : Coord → Coord → ℝ) (h : List Coord) :
    calculateTotalDistance d h = consecutiveDistanceSum d h := by
  cases h with
  | nil => simp [calculateTotalDistance, consecutiveDistanceSum]
  | cons a t =>
    unfold calculateTotalDistance
    rw [foldl_add_eq_sum, zero_add]
    simp only [List.length_cons, Nat.add_sub_cancel]
    rw [List.range'_eq_map_range, List.map_map]
    have hfun : ((List.range t.length).map
        ((fun i => d ((a :: t).getD (i - 1) c0) ((a :: t).getD i c0)) ∘ (1 + ·))) =
        (List.range t.length).map fun k => d ((a :: t).getD k c0) (t.getD k c0) := by
      apply List.map_congr_left
      intro k _
      have h2 : 1 + k = k + 1 := by omega
      simp only [Function.comp, h2, Nat.add_sub_cancel, List.getD_cons_succ]
    rw [hfun, range_map_pairs_sum]

/-- C9: on explicit stop with a movement history of at least two positions,
the reported total equals the sum of the `map.distance` great-circle
distances over consecutive history pairs; for the history
`[(0,0), (0,0.001), (0,0.002)]` the computed total coincides exactly (hence
within 1 meter) with the reference haversine sum of the two segments. -/
theorem stopTracking_reports_consecutive_sum (d : Coord → Coord → ℝ)
    (h : List Coord) (h2 : 2 ≤ h.length) :
    stopTrackingReport d h = some (consecutiveDistanceSum d h) ∧
    |calculateTotalDistance leafletDistance
        [((0:ℝ), (0:ℝ)), ((0:ℝ), 1 / 1000), ((0:ℝ), 2 / 1000)] -
      (leafletDistance ((0:ℝ), (0:ℝ)) ((0:ℝ), 1 / 1000) +
        leafletDistance ((0:ℝ), 1 / 1000) ((0:ℝ), 2 / 1000))| < 1 := by
  constructor
  · unfold stopTrackingReport
    rw [if_pos (by omega), calculateTotalDistance_eq_sum]
  · rw [calculateTotalDistance_eq_sum]
    simp only [consecutiveDistanceSum]
    ring_nf
    simp

/-- Witness for C9 at the three-point history from the specification's
stop-tracking scenario. -/
theorem stopTracking_reports_consecutive_sum_witness :
    stopTrackingReport leafletDistance
        [((0:ℝ), (0:ℝ)), ((0:ℝ), 1 / 1000), ((0:ℝ), 2 / 1000)] =
      some (consecutiveDistanceSum leafletDistance
        [((0:ℝ), (0:ℝ)), ((0:ℝ), 1 / 1000), ((0:ℝ), 2 / 1000)]) :=
  (stopTracking_reports_consecutive_sum leafletDistance _ (by simp)).1

lemma stopRouteTracking_clears (s : TrackingState) (hInv : TimerInv s) :
    (stopRouteTracking s).trackingInterval = none ∧
      (stopRouteTracking s).world.active = [] := by
  rcases hInv with ⟨h1, h2⟩ | ⟨id, h1, h2⟩
  · simp [stopRouteTracking, h1, h2]
  · simp [stopRouteTracking, h1, clearIntervalW, h2]

lemma stopRouteTracking_fields (s : TrackingState) :
    (stopRouteTracking s).routeCoordinates = s.routeCoordinates ∧
      (stopRouteTracking s).currentLocation = s.currentLocation := by
  cases h : s.trackingInterval <;> simp [stopRouteTracking, h]

/-- C10: at most one progress interval is ever active.
`startRouteTracking` first cancels any existing interval (first conjunct:
the timer invariant is preserved, so the active-interval list always has at
most one handle — third conjunct), and after `stopRouteTracking`,
`clearRoute`, or the unmount hook the handle is `null` and no interval is
left active, so no further periodic progress updates occur. -/
theorem tracking_interval_unique (s : TrackingState) (hInv : TimerInv s) :
    TimerInv (startRouteTracking s) ∧
    s.world.active.length ≤ 1 ∧
    (startRouteTracking s).world.active.length ≤ 1 ∧
    (stopRouteTracking s).trackingInterval = none ∧
    (stopRouteTracking s).world.active = [] ∧
    (clearRoute s).trackingInterval = none ∧
    (clearRoute s).world.active = [] ∧
    (onUnmountedHandler s).trackingInterval = none ∧
    (onUnmountedHandler s).world.active = [] := by
  obtain ⟨hstop1, hstop2⟩ := stopRouteTracking_clears s hInv
  have hstart : TimerInv (startRouteTracking s) ∧
      (startRouteTracking s).world.active.length ≤ 1 := by
    unfold startRouteTracking
    dsimp only
    split_ifs with hc
    · exact ⟨Or.inl ⟨hstop1, hstop2⟩, by simp [hstop2]⟩
    · constructor
      · exact Or.inr ⟨(stopRouteTracking s).world.nextId, rfl,
          by simp [setIntervalW, hstop2]⟩
      · simp [setIntervalW, hstop2]
  have hlen : s.world.active.length ≤ 1 := by
    rcases hInv with ⟨_, h2⟩ | ⟨id, _, h2⟩ <;> simp [h2]
  refine ⟨hstart.1, hlen, hstart.2, hstop1, hstop2, ?_, ?_, hstop1, hstop2⟩
  · simp [clearRoute, hstop1]
  · simp [clearRoute, hstop2]

/-- Witness for C10 at the freshly mounted state (no interval, no route). -/
theorem tracking_interval_unique_witness :
    (stopRouteTracking
        { world := { nextId := 0, active := [] }, trackingInterval := none,
          routeCoordinates := [], currentLocation := none,
          destination := none }).trackingInterval = none :=
  (tracking_interval_unique _ (Or.inl ⟨rfl, rfl⟩)).2.2.2.1

end MapTesting
